import Mathlib

/-!
Shallow embedding of the wakatime-mcp repository (src/wakatime_client.py and
src/server.py) and verification of the frozen claims about it.

Modelling conventions:
* Python numbers (`int`/`float` seconds, percents) are modelled as `ℚ` with
  exact arithmetic.
* Python `datetime.date` values are modelled as year/month/day records;
  comparison and subtraction go through the proleptic Gregorian ordinal
  (`PyDate.toOrdinal`), exactly as CPython's `date` implements them.
* Python dicts used as accumulators are modelled as insertion-ordered
  association lists; Python's stable `sorted(..., reverse=True)` is modelled
  by a stable descending insertion sort.
* JSON bodies are a small inductive type; `dict.get(k, default)` becomes an
  association-list lookup with a default.
* The HTTP layer is not executed: `_request` is modelled as the pure
  classification of an already-received response (status, parsed body, text)
  into the outcome the Python code produces, and the tool layer is modelled
  as a pure function of the data the client call would return, with the
  request plan (`SummaryPlan`) made explicit so that "no network call is
  made" is expressible.
-/

/-! ### Rounding helpers (Python `int`, `round(x, 1)`) -/

/-- Python `int(x)`: truncation toward zero. -/
def pyInt (q : ℚ) : ℤ :=
  if q < 0 then -⌊-q⌋ else ⌊q⌋

/-- Round to the nearest integer, ties to even (Python `round` on exact values). -/
def roundHalfEven (q : ℚ) : ℤ :=
  let f := ⌊q⌋
  let r := q - (f : ℚ)
  if r < 1/2 then f
  else if 1/2 < r then f + 1
  else if f % 2 = 0 then f else f + 1

/-- Python `round(x, 1)`. -/
def pyRound1 (q : ℚ) : ℚ :=
  (roundHalfEven (q * 10) : ℚ) / 10

/-! ### Decimal rendering of numbers (Python `str`/f-string interpolation) -/

def digitChar (n : Nat) : Char := Char.ofNat (48 + n)

/-- Decimal digits of `n` (most significant first), with fuel for structural
recursion; `fuel ≥ n` suffices. -/
def natDigitsAux : Nat → Nat → List Char
  | 0, _ => []
  | fuel + 1, n =>
    if n < 10 then [digitChar n]
    else natDigitsAux fuel (n / 10) ++ [digitChar (n % 10)]

def natToStr (n : Nat) : String := ⟨natDigitsAux (n + 1) n⟩

def intToStr (i : ℤ) : String :=
  if i < 0 then "-" ++ natToStr i.natAbs else natToStr i.natAbs

/-- Rendering of an exact rational (decimal-free fallback; integral values
print like Python integers, which is the only case the claims observe). -/
def ratToStr (q : ℚ) : String :=
  if q.den = 1 then intToStr q.num else intToStr q.num ++ "/" ++ natToStr q.den

/-! ### JSON values -/

inductive Json where
  | null : Json
  | bool (b : Bool) : Json
  | num (q : ℚ) : Json
  | str (s : String) : Json
  | arr (xs : List Json) : Json
  | obj (fields : List (String × Json)) : Json

/-- Lookup in a JSON object's field list (Python `dict.get(k)`). -/
def jsonLookup : List (String × Json) → String → Option Json
  | [], _ => none
  | (k', v) :: rest, k => if k' = k then some v else jsonLookup rest k

/-- Python `d.get(k)` on a JSON value (returns `none` off objects). -/
def Json.getField : Json → String → Option Json
  | .obj fields, k => jsonLookup fields k
  | _, _ => none

/-- Python `d.get(k, default)`. -/
def Json.getFieldD (j : Json) (k : String) (default : Json) : Json :=
  (j.getField k).getD default

/-- Python `str()` of a JSON value as interpolated into messages.  Containers
render through an elided placeholder: no claim observes them. -/
def jsonToStr : Json → String
  | .null => "None"
  | .bool true => "True"
  | .bool false => "False"
  | .num q => ratToStr q
  | .str s => s
  | .arr _ => "<list>"
  | .obj _ => "<dict>"

/-! ### WakaTimeClient construction (`wakatime_client.py`, `__init__`) -/

structure WakaTimeClient where
  base_url : String
  timeout : ℚ
  api_key : String
deriving DecidableEq

/-- The message of the `WakaTimeAuthError` raised by `__init__`. -/
def apiKeyMissingMsg : String :=
  "WAKATIME_API_KEY environment variable not set. " ++
  "Get your API key from https://wakatime.com/settings/api-key"

inductive ClientInitResult where
  | authError (message : String) : ClientInitResult
  | ok (client : WakaTimeClient) : ClientInitResult
deriving DecidableEq

/-- `if api_key is None: api_key = os.environ.get("WAKATIME_API_KEY")`. -/
def resolveApiKey (api_key env_api_key : Option String) : Option String :=
  match api_key with
  | some k => some k
  | none => env_api_key

/-- `WakaTimeClient.__init__`: `env_api_key` is `os.environ.get("WAKATIME_API_KEY")`.
`if not api_key: raise WakaTimeAuthError(...)`; no network I/O happens here. -/
def WakaTimeClient.init (api_key env_api_key : Option String)
    (base_url : String) (timeout : ℚ) : ClientInitResult :=
  match resolveApiKey api_key env_api_key with
  | none => .authError apiKeyMissingMsg
  | some k => if k = "" then .authError apiKeyMissingMsg else .ok ⟨base_url, timeout, k⟩

/-! ### `_request` status classification (`wakatime_client.py`) -/

/-- An already-received upstream HTTP response: status code, parsed JSON body
and raw text.  (Transport and auth-header construction are not modelled; the
claims are about the status-code classification.) -/
structure HttpResponse where
  status : Nat
  body : Json
  text : String

/-- The outcome of `_request`: one of the typed exceptions, or the parsed
JSON body returned unchanged. -/
inductive RequestOutcome where
  | authError (message : String) : RequestOutcome
  | notReady (message : String) : RequestOutcome
  | rateLimit (message : String) : RequestOutcome
  | apiError (message : String) : RequestOutcome
  | ok (body : Json) : RequestOutcome

/-- `data.get("data", {}).get("percent_calculated", 0)` in the 202 branch. -/
def percentCalculated (body : Json) : Json :=
  (body.getFieldD "data" (.obj [])).getFieldD "percent_calculated" (.num 0)

/-- The `WakaTimeNotReadyError` message for a 202 response. -/
def notReadyMsg (body : Json) : String :=
  "Stats are still being computed (" ++ jsonToStr (percentCalculated body) ++
  "% complete). Try again in a few seconds."

def rateLimitMsg : String :=
  "Rate limit exceeded. WakaTime allows ~10 requests/second. " ++
  "Please wait a moment before trying again."

/-- `response.json().get("error", response.text)` in the generic error branch. -/
def apiErrorDetail (r : HttpResponse) : String :=
  match r.body.getField "error" with
  | some j => jsonToStr j
  | none => r.text

/-- The generic `WakaTimeError` message: `f"API error ({status}): {error_msg}"`. -/
def apiErrorMsg (r : HttpResponse) : String :=
  "API error (" ++ natToStr r.status ++ "): " ++ apiErrorDetail r

/-- `WakaTimeClient._request`, modelled as the classification of the received
response (the single network attempt itself is outside the model). -/
def _request (r : HttpResponse) : RequestOutcome :=
  if r.status = 401 then .authError "Invalid API key"
  else if r.status = 202 then .notReady (notReadyMsg r.body)
  else if r.status = 429 then .rateLimit rateLimitMsg
  else if 400 ≤ r.status then .apiError (apiErrorMsg r)
  else .ok r.body

/-! ### `format_seconds` (`wakatime_client.py`) -/

/-- `WakaTimeClient.format_seconds`.  Python `//` on these values is floor
division (`Int.fdiv`) and `%` is floor modulus (`Int.fmod`). -/
def format_seconds (seconds : ℚ) : String :=
  if seconds < 60 then intToStr (pyInt seconds) ++ " secs"
  else
    let minutes : ℤ := ⌊seconds / 60⌋
    if minutes < 60 then intToStr minutes ++ " mins"
    else
      let hours := Int.fdiv minutes 60
      let remaining_mins := Int.fmod minutes 60
      if hours < 24 then
        if remaining_mins = 0 then intToStr hours ++ " hrs"
        else intToStr hours ++ " hrs " ++ intToStr remaining_mins ++ " mins"
      else
        let days := Int.fdiv hours 24
        let remaining_hours := Int.fmod hours 24
        if remaining_hours = 0 then intToStr days ++ " days"
        else intToStr days ++ " days " ++ intToStr remaining_hours ++ " hrs"

/-! ### Calendar dates (`datetime.date`) -/

/-- A Python `datetime.date` value (year/month/day). -/
structure PyDate where
  year : Nat
  month : Nat
  day : Nat
deriving DecidableEq, Repr

/-- Gregorian leap-year rule. -/
def isLeap (y : Nat) : Bool :=
  y % 4 == 0 && (y % 100 != 0 || y % 400 == 0)

/-- Number of days in month `m` of year `y`. -/
def daysInMonth (y m : Nat) : Nat :=
  match m with
  | 2 => if isLeap y then 29 else 28
  | 4 => 30
  | 6 => 30
  | 9 => 30
  | 11 => 30
  | _ => 31

/-- Days in year `y` strictly before month `m` (for `m` in `1..12`). -/
def daysBeforeMonth (y m : Nat) : Nat :=
  (match m with
   | 1 => 0 | 2 => 31 | 3 => 59 | 4 => 90 | 5 => 120 | 6 => 151
   | 7 => 181 | 8 => 212 | 9 => 243 | 10 => 273 | 11 => 304 | 12 => 334
   | _ => 365) +
  (if isLeap y = true ∧ 3 ≤ m then 1 else 0)

/-- `date.toordinal()`: the proleptic Gregorian ordinal (day 1 = 0001-01-01).
CPython's `date` comparison and subtraction are equivalent to comparison and
subtraction of these ordinals. -/
def PyDate.toOrdinal (dt : PyDate) : ℤ :=
  let p : ℤ := (dt.year : ℤ) - 1
  365 * p + p / 4 - p / 100 + p / 400 +
    (daysBeforeMonth dt.year dt.month : ℤ) + (dt.day : ℤ)

/-- A structurally valid calendar date (what `datetime.date` can hold). -/
def PyDate.valid (dt : PyDate) : Prop :=
  1 ≤ dt.year ∧ 1 ≤ dt.month ∧ dt.month ≤ 12 ∧
    1 ≤ dt.day ∧ dt.day ≤ daysInMonth dt.year dt.month

instance (dt : PyDate) : Decidable dt.valid := by
  unfold PyDate.valid; infer_instance

/-- Left-pad with `'0'` to width `w`. -/
def padZero (w : Nat) (cs : List Char) : List Char :=
  List.replicate (w - cs.length) '0' ++ cs

/-- `date.isoformat()` / `strftime("%Y-%m-%d")`: zero-padded `YYYY-MM-DD`. -/
def PyDate.isoformat (dt : PyDate) : String :=
  ⟨padZero 4 (natDigitsAux (dt.year + 1) dt.year) ++ ['-'] ++
   padZero 2 (natDigitsAux (dt.month + 1) dt.month) ++ ['-'] ++
   padZero 2 (natDigitsAux (dt.day + 1) dt.day)⟩

/-- `date - timedelta(days=1)`. -/
def PyDate.pred (dt : PyDate) : PyDate :=
  if 2 ≤ dt.day then ⟨dt.year, dt.month, dt.day - 1⟩
  else if 2 ≤ dt.month then ⟨dt.year, dt.month - 1, daysInMonth dt.year (dt.month - 1)⟩
  else ⟨dt.year - 1, 12, 31⟩

/-! ### `parse_date` (`server.py`) -/

/-- Split a character list on `'-'` (used to model ISO `YYYY-MM-DD` parsing). -/
def splitOnDash : List Char → List (List Char)
  | [] => [[]]
  | c :: cs =>
    let r := splitOnDash cs
    if c = '-' then [] :: r
    else
      match r with
      | [] => [[c]]
      | g :: gs => (c :: g) :: gs

/-- Value of a digit list, most significant first. -/
def digitsVal (cs : List Char) : Nat :=
  cs.foldl (fun a c => 10 * a + (c.toNat - 48)) 0

/-- Parse exactly `w` decimal digits. -/
def parseFixedNat (w : Nat) (cs : List Char) : Option Nat :=
  if cs.length = w ∧ cs.all (fun c => c.isDigit) then some (digitsVal cs) else none

/-- `date.fromisoformat` on the canonical `YYYY-MM-DD` layout: three
dash-separated all-digit groups of widths 4, 2, 2 forming a valid calendar
date; anything else raises `ValueError`, i.e. yields `none` here. -/
def fromIsoformat (s : String) : Option PyDate :=
  match splitOnDash s.data with
  | [ys, ms, ds] =>
    match parseFixedNat 4 ys, parseFixedNat 2 ms, parseFixedNat 2 ds with
    | some y, some m, some d =>
      if 1 ≤ y ∧ 1 ≤ m ∧ m ≤ 12 ∧ 1 ≤ d ∧ d ≤ daysInMonth y m then
        some ⟨y, m, d⟩
      else none
    | _, _, _ => none
  | _ => none

/-- `parse_date(date_str)` from `server.py`: `None`/empty strings and parse
failures all give `None`. -/
def parse_date (date_str : Option String) : Option PyDate :=
  match date_str with
  | none => none
  | some s => if s = "" then none else fromIsoformat s

/-! ### Upstream summary payloads (`/users/current/summaries`) -/

/-- One named entry of a daily breakdown list (`projects`/`languages`/
`editors`/`categories` items).  The Python code reads these fields with
`.get(..., default)`; a missing field is indistinguishable from its default,
so the fields are total here. -/
structure SummaryEntry where
  name : String
  text : String
  percent : ℚ
  total_seconds : ℚ
deriving DecidableEq, Repr, Inhabited

structure GrandTotal where
  text : String
  total_seconds : ℚ
deriving DecidableEq, Repr, Inhabited

/-- One element of the summaries response's `data` list (one day). -/
structure DaySummary where
  range_date : Option String
  grand_total : GrandTotal
  projects : List SummaryEntry
  languages : List SummaryEntry
  editors : List SummaryEntry
  categories : List SummaryEntry
deriving DecidableEq, Repr, Inhabited

/-! ### `get_summary` (`server.py`) -/

/-- One item of a reshaped breakdown list in a tool result.  `total_seconds`
is `none` where the Python dict omits the key (single-day languages, editors
and categories). -/
structure BreakdownItem where
  name : String
  time : String
  percent : ℚ
  total_seconds : Option ℚ
deriving DecidableEq, Repr

/-- `totals[name] = totals.get(name, 0) + secs` on an insertion-ordered dict. -/
def upsertTotal (m : List (String × ℚ)) (name : String) (secs : ℚ) :
    List (String × ℚ) :=
  match m with
  | [] => [(name, secs)]
  | (k, v) :: rest =>
    if k = name then (k, v + secs) :: rest else (k, v) :: upsertTotal rest name secs

/-- Accumulate one day's entries into the running totals dict. -/
def addDayTotals (get : DaySummary → List SummaryEntry)
    (m : List (String × ℚ)) (day : DaySummary) : List (String × ℚ) :=
  (get day).foldl (fun m e => upsertTotal m e.name e.total_seconds) m

/-- The `*_totals` dict after the `for day_summary in summaries` loop. -/
def aggregateTotals (get : DaySummary → List SummaryEntry)
    (days : List DaySummary) : List (String × ℚ) :=
  days.foldl (addDayTotals get) []

/-- `total_seconds += grand_total.get("total_seconds", 0)` over all days. -/
def grandTotalSeconds (days : List DaySummary) : ℚ :=
  days.foldl (fun acc day => acc + day.grand_total.total_seconds) 0

/-- Stable insertion of one item into a list sorted descending by seconds;
an incoming item goes after all existing items with ≥ seconds. -/
def insertDescBySeconds (x : String × ℚ) : List (String × ℚ) → List (String × ℚ)
  | [] => [x]
  | y :: ys => if y.2 < x.2 then x :: y :: ys else y :: insertDescBySeconds x ys

/-- `sorted(totals.items(), key=lambda x: x[1], reverse=True)`: Python's sort
is stable, and stable sorting by a total preorder is a unique function, so
this stable insertion sort computes the same list. -/
def sortDescBySeconds : List (String × ℚ) → List (String × ℚ)
  | [] => []
  | x :: xs => insertDescBySeconds x (sortDescBySeconds xs)

/-- `format_breakdown(totals, limit)` from `get_summary` (the closure also
captures `total_seconds`, passed here explicitly). -/
def format_breakdown (total_seconds : ℚ) (totals : List (String × ℚ))
    (limit : Nat) : List BreakdownItem :=
  ((sortDescBySeconds totals).take limit).map fun p =>
    ⟨p.1, format_seconds p.2,
      if 0 < total_seconds then pyRound1 (p.2 / total_seconds * 100) else 0,
      some p.2⟩

/-- The validation step of `get_summary`: either the advisory returned before
any network call, or the `get_summaries(start, end, project)` request that
will be made. -/
inductive SummaryPlan where
  | advisory (error message : String) : SummaryPlan
  | fetch (start_d end_d : PyDate) (project : Option String) : SummaryPlan
deriving DecidableEq, Repr

/-- Date defaulting and range validation of `get_summary` (everything that
happens before `client.get_summaries` is awaited). -/
def get_summary_plan (today : PyDate) (start_date end_date project : Option String) :
    SummaryPlan :=
  let yesterday := today.pred
  let s := (parse_date start_date).getD yesterday
  let e := (parse_date end_date).getD today
  if e.toOrdinal < s.toOrdinal then
    .advisory "Invalid date range" "end_date cannot be before start_date"
  else .fetch s e project

/-- The distinct result shapes `get_summary` returns.  Each constructor lists
its dict's fields in insertion order; `advisory` is the `error`/`message`
validation shape. -/
inductive SummaryResult where
  | advisory (error message : String) : SummaryResult
  | noActivity (start_date end_date total_time : String) (total_seconds : ℚ)
      (message : String) : SummaryResult
  | multiDay (start_date end_date : String) (num_days : ℤ)
      (total_time : String) (total_seconds : ℚ) (daily_average : String)
      (projects languages editors categories : List BreakdownItem)
      (project_filter : Option String) : SummaryResult
  | singleDay (date total_time : String) (total_seconds : ℚ)
      (projects languages editors categories : List BreakdownItem)
      (project_filter : Option String) : SummaryResult
deriving DecidableEq, Repr

/-- `if project: result["project_filter"] = project` (absent for falsy values). -/
def projectFilterField (project : Option String) : Option String :=
  match project with
  | some p => if p = "" then none else some p
  | none => none

/-- The part of `get_summary` that runs on the fetched summaries list
(`response.get("data", [])`). -/
def get_summary_finish (s e : PyDate) (project : Option String)
    (summaries : List DaySummary) : SummaryResult :=
  if summaries = [] then
    .noActivity s.isoformat e.isoformat "0 mins" 0
      "No coding activity recorded for this period."
  else if s.toOrdinal ≠ e.toOrdinal then
    let total_seconds := grandTotalSeconds summaries
    let num_days := e.toOrdinal - s.toOrdinal + 1
    .multiDay s.isoformat e.isoformat num_days
      (format_seconds total_seconds) total_seconds
      (if 0 < num_days then format_seconds (total_seconds / (num_days : ℚ))
       else "0 mins")
      (format_breakdown total_seconds (aggregateTotals (fun d => d.projects) summaries) 10)
      (format_breakdown total_seconds (aggregateTotals (fun d => d.languages) summaries) 10)
      (format_breakdown total_seconds (aggregateTotals (fun d => d.editors) summaries) 5)
      (format_breakdown total_seconds (aggregateTotals (fun d => d.categories) summaries) 5)
      (projectFilterField project)
  else
    let day := summaries.headD default
    .singleDay (day.range_date.getD s.isoformat) day.grand_total.text
      day.grand_total.total_seconds
      ((day.projects.take 10).map fun p => ⟨p.name, p.text, pyRound1 p.percent, some p.total_seconds⟩)
      ((day.languages.take 10).map fun l => ⟨l.name, l.text, pyRound1 l.percent, none⟩)
      ((day.editors.take 5).map fun ed => ⟨ed.name, ed.text, pyRound1 ed.percent, none⟩)
      ((day.categories.take 5).map fun c => ⟨c.name, c.text, pyRound1 c.percent, none⟩)
      (projectFilterField project)

/-- `get_summary(start_date, end_date, project)` as a function of the ambient
date (`date.today()`) and the summaries list the (single) upstream call would
return. -/
def get_summary (today : PyDate) (start_date end_date project : Option String)
    (summaries : List DaySummary) : SummaryResult :=
  match get_summary_plan today start_date end_date project with
  | .advisory err msg => .advisory err msg
  | .fetch s e _ => get_summary_finish s e project summaries

/-! ### `get_coding_stats` (`server.py`) -/

structure BestDay where
  date : String
  time : String
  total_seconds : ℚ
deriving DecidableEq, Repr

/-- The fields of the upstream stats payload that `get_coding_stats` reads.
Optional fields model `.get(key, default)` fallbacks that the claims observe
(`human_readable_range` defaulting to the requested range). -/
structure StatsData where
  human_readable_range : Option String
  human_readable_total : Option String
  total_seconds : ℚ
  human_readable_daily_average : Option String
  days_including_holidays : ℚ
  days_minus_holidays : ℚ
  best_day : Option BestDay
  languages : List SummaryEntry
  projects : List SummaryEntry
  editors : List SummaryEntry
  operating_systems : List SummaryEntry
  categories : List SummaryEntry
deriving Repr

/-- The result dict of `get_coding_stats`. -/
structure CodingStats where
  range_text : String
  total_time : String
  total_seconds : ℚ
  daily_average : String
  days_including_holidays : ℚ
  days_minus_holidays : ℚ
  best_day : Option BestDay
  languages : List BreakdownItem
  projects : List BreakdownItem
  editors : List BreakdownItem
  operating_systems : List BreakdownItem
  categories : List BreakdownItem
deriving Repr

/-- `get_coding_stats(range)` as a function of the stats payload the upstream
call returns. -/
def get_coding_stats (range : String) (stats : StatsData) : CodingStats where
  range_text := stats.human_readable_range.getD range
  total_time := stats.human_readable_total.getD "0 mins"
  total_seconds := stats.total_seconds
  daily_average := stats.human_readable_daily_average.getD "0 mins"
  days_including_holidays := stats.days_including_holidays
  days_minus_holidays := stats.days_minus_holidays
  best_day := stats.best_day
  languages :=
    (stats.languages.take 10).map fun l => ⟨l.name, l.text, pyRound1 l.percent, some l.total_seconds⟩
  projects :=
    (stats.projects.take 10).map fun p => ⟨p.name, p.text, pyRound1 p.percent, some p.total_seconds⟩
  editors :=
    (stats.editors.take 5).map fun ed => ⟨ed.name, ed.text, pyRound1 ed.percent, none⟩
  operating_systems :=
    (stats.operating_systems.take 5).map fun o => ⟨o.name, o.text, pyRound1 o.percent, none⟩
  categories :=
    (stats.categories.take 5).map fun c => ⟨c.name, c.text, pyRound1 c.percent, none⟩

/-! ### Specification-side definitions (for refinement comparisons)

These follow the spec's words rather than the code and are only used on the
right-hand side of claim statements, to be compared with the source-derived
functions above. -/

/-- Spec: "accumulates per-name seconds across days" — the total
`total_seconds` recorded for name `n` across all daily summaries. -/
def specAccumulatedSeconds (get : DaySummary → List SummaryEntry)
    (days : List DaySummary) (n : String) : ℚ :=
  (days.map fun d => ((get d).map fun e => if e.name = n then e.total_seconds else 0).sum).sum

/-- Spec: "sorts descending by accumulated seconds" (on the reshaped items). -/
def specSortedDesc (L : List BreakdownItem) : Prop :=
  L.Pairwise fun a b => ∀ x y, a.total_seconds = some x → b.total_seconds = some y → y ≤ x

/-- Spec: the contract of one aggregated breakdown list — truncated to
`limit`, sorted descending by accumulated seconds, each entry carrying the
across-days accumulated seconds for its name with
`percent = round(100 * name_seconds / total_seconds, 1)` (`0` when the total
is `0`), never a copied single-day percent. -/
def specBreakdownOk (get : DaySummary → List SummaryEntry) (limit : Nat)
    (days : List DaySummary) (T : ℚ) (L : List BreakdownItem) : Prop :=
  L.length ≤ limit ∧ specSortedDesc L ∧
  ∀ item ∈ L, ∃ s, item.total_seconds = some s ∧
    s = specAccumulatedSeconds get days item.name ∧
    item.time = format_seconds s ∧
    item.percent = (if 0 < T then pyRound1 (100 * s / T) else 0)

/-- `totals.get(name, 0)` on the accumulator dict. -/
def totalsGet (m : List (String × ℚ)) (k : String) : ℚ :=
  match m with
  | [] => 0
  | (k', v) :: rest => if k' = k then v else totalsGet rest k

/-- The breakdown list named `languages` inside a `get_summary` result. -/
def SummaryResult.languagesOf : SummaryResult → List BreakdownItem
  | .multiDay _ _ _ _ _ _ _ l _ _ _ => l
  | .singleDay _ _ _ _ l _ _ _ => l
  | _ => []

/-! ### Concrete data used by witnesses -/

/-- A malformed date string (month 13). -/
def badDateStr : String := "2024-13-01"

def demoEntryGo1 : SummaryEntry := ⟨"Go", "1 hrs", 50, 3600⟩
def demoEntryGo2 : SummaryEntry := ⟨"Go", "30 mins", 100, 1800⟩
def demoEntryPy1 : SummaryEntry := ⟨"Python", "1 hrs", 50, 3600⟩

def demoDay1 : DaySummary :=
  ⟨some "2024-01-01", ⟨"2 hrs", 7200⟩,
   [⟨"proj-a", "2 hrs", 100, 7200⟩],
   [demoEntryGo1, demoEntryPy1],
   [⟨"vim", "2 hrs", 100, 7200⟩],
   [⟨"coding", "2 hrs", 100, 7200⟩]⟩

def demoDay2 : DaySummary :=
  ⟨some "2024-01-02", ⟨"30 mins", 1800⟩,
   [⟨"proj-a", "30 mins", 100, 1800⟩],
   [demoEntryGo2],
   [⟨"vim", "30 mins", 100, 1800⟩],
   [⟨"coding", "30 mins", 100, 1800⟩]⟩

/-- A single day whose language percent has two decimals (`33.33`). -/
def demoDayRawPercent : DaySummary :=
  ⟨some "2024-01-05", ⟨"2 hrs", 7200⟩, [],
   [⟨"Go", "2 hrs", 3333/100, 7200⟩], [], []⟩

/-- A stats payload carrying 15 languages. -/
def demoStats : StatsData where
  human_readable_range := some "last 7 days"
  human_readable_total := some "10 hrs"
  total_seconds := 36000
  human_readable_daily_average := some "1 hrs 25 mins"
  days_including_holidays := 7
  days_minus_holidays := 5
  best_day := some ⟨"2024-01-03", "3 hrs", 10800⟩
  languages :=
    [⟨"L01", "t", 20, 7200⟩, ⟨"L02", "t", 15, 5400⟩, ⟨"L03", "t", 10, 3600⟩,
     ⟨"L04", "t", 9, 3240⟩, ⟨"L05", "t", 8, 2880⟩, ⟨"L06", "t", 7, 2520⟩,
     ⟨"L07", "t", 6, 2160⟩, ⟨"L08", "t", 5, 1800⟩, ⟨"L09", "t", 5, 1800⟩,
     ⟨"L10", "t", 5, 1800⟩, ⟨"L11", "t", 3, 1080⟩, ⟨"L12", "t", 2, 720⟩,
     ⟨"L13", "t", 2, 720⟩, ⟨"L14", "t", 2, 720⟩, ⟨"L15", "t", 1, 360⟩]
  projects := [⟨"P1", "t", 60, 21600⟩, ⟨"P2", "t", 40, 14400⟩]
  editors := [⟨"vim", "t", 80, 28800⟩, ⟨"vscode", "t", 20, 7200⟩]
  operating_systems := [⟨"linux", "t", 100, 36000⟩]
  categories := [⟨"coding", "t", 90, 32400⟩, ⟨"debugging", "t", 10, 3600⟩]

/-- Spec comparison for the single-day (and stats) reshaping: a reshaped
breakdown list is a ≤ `limit` selection of the source entries, each carrying
the source entry's text and its raw percent rounded to one decimal
(`keepSeconds` controls whether the dict includes `total_seconds`). -/
def specSingleDayItemsOk (src : List SummaryEntry) (limit : Nat)
    (keepSeconds : Bool) (L : List BreakdownItem) : Prop :=
  L.length ≤ limit ∧
  ∀ item ∈ L, ∃ e ∈ src,
    item = ⟨e.name, e.text, pyRound1 e.percent,
      if keepSeconds then some e.total_seconds else none⟩

/-! ### Helper lemmas: floors and floor division -/

theorem floor_floor_div (x : ℚ) (k : ℕ) (hk : 0 < k) :
    ⌊((⌊x⌋ : ℚ)) / (k : ℚ)⌋ = ⌊x / (k : ℚ)⌋ := by
  have hkQ : (0 : ℚ) < (k : ℚ) := by exact_mod_cast hk
  apply eq_of_forall_le_iff
  intro z
  rw [Int.le_floor, Int.le_floor, le_div_iff₀ hkQ, le_div_iff₀ hkQ]
  constructor
  · intro h
    have h3 : (z * k : ℤ) ≤ ⌊x⌋ := by exact_mod_cast h
    have h4 : ((z * k : ℤ) : ℚ) ≤ x := le_trans (by exact_mod_cast h3) (Int.floor_le x)
    push_cast at h4
    exact h4
  · intro h
    have h3 : (z * k : ℤ) ≤ ⌊x⌋ := Int.le_floor.2 (by push_cast; exact h)
    exact_mod_cast h3

theorem fdiv_floor_div (x : ℚ) (k : ℕ) (hk : 0 < k) :
    Int.fdiv ⌊x⌋ (k : ℤ) = ⌊x / (k : ℚ)⌋ := by
  rw [Int.fdiv_eq_ediv _ (by exact_mod_cast Nat.zero_le k)]
  rw [← Rat.floor_intCast_div_natCast ⌊x⌋ k]
  exact floor_floor_div x k hk

/-! ### Claim C2: `_request` status-code mapping -/

/-- C2: `_request` maps each response status to exactly one outcome: 401 to
`AuthError("Invalid API key")`, 202 to `NotReadyError` whose message embeds
the body's `percent_calculated`, 429 to `RateLimitError`, any other status
≥ 400 to the generic `ApiError` carrying the status code and the upstream
error message or body text, and a 2xx response (other than the separately
handled 202) to the parsed JSON body returned unchanged. -/
theorem claim_C2_status_mapping (r : HttpResponse) :
    (r.status = 401 → _request r = .authError "Invalid API key") ∧
    (r.status = 202 →
      _request r = .notReady (notReadyMsg r.body) ∧
      notReadyMsg r.body =
        "Stats are still being computed (" ++ jsonToStr (percentCalculated r.body) ++
        "% complete). Try again in a few seconds.") ∧
    (r.status = 429 → _request r = .rateLimit rateLimitMsg) ∧
    (400 ≤ r.status → r.status ≠ 401 → r.status ≠ 429 →
      _request r = .apiError (apiErrorMsg r) ∧
      apiErrorMsg r = "API error (" ++ natToStr r.status ++ "): " ++ apiErrorDetail r) ∧
    (200 ≤ r.status → r.status < 300 → r.status ≠ 202 → _request r = .ok r.body) := by
  refine ⟨?_, ?_, ?_, ?_, ?_⟩
  · intro h
    simp [_request, h]
  · intro h
    refine ⟨?_, rfl⟩
    simp [_request, h]
  · intro h
    simp [_request, h]
  · intro h400 h401 h429
    refine ⟨?_, rfl⟩
    unfold _request
    rw [if_neg h401, if_neg (by omega), if_neg h429, if_pos h400]
  · intro h200 h300 h202
    unfold _request
    rw [if_neg (by omega), if_neg h202, if_neg (by omega), if_neg (by omega)]

/-- Witness for C2 at one concrete response per status class. -/
theorem claim_C2_status_mapping_witness :
    _request ⟨401, .null, ""⟩ = .authError "Invalid API key" ∧
    _request ⟨202, .obj [("data", .obj [("percent_calculated", .num 85)])], ""⟩ =
      .notReady ("Stats are still being computed (85% complete). Try again in a few seconds.") ∧
    _request ⟨429, .null, ""⟩ = .rateLimit rateLimitMsg ∧
    _request ⟨500, .obj [("error", .str "upstream broke")], "raw body"⟩ =
      .apiError "API error (500): upstream broke" ∧
    _request ⟨200, .str "payload", ""⟩ = .ok (.str "payload") :=
  ⟨(claim_C2_status_mapping ⟨401, .null, ""⟩).1 rfl,
   ((claim_C2_status_mapping ⟨202, .obj [("data", .obj [("percent_calculated", .num 85)])], ""⟩).2.1 rfl).1,
   (claim_C2_status_mapping ⟨429, .null, ""⟩).2.2.1 rfl,
   ((claim_C2_status_mapping ⟨500, .obj [("error", .str "upstream broke")], "raw body"⟩).2.2.2.1
      (by norm_num) (by norm_num) (by norm_num)).1,
   (claim_C2_status_mapping ⟨200, .str "payload", ""⟩).2.2.2.2 (by norm_num) (by norm_num) (by norm_num)⟩

/-! ### Claim C5: client construction requires a non-empty key -/

/-- C5: constructing the client with no explicit key and no environment key
(or an empty resolved key) raises `AuthError` immediately — `__init__`
performs no network request — and with a non-empty resolved key it succeeds
and stores that key. -/
theorem claim_C5_client_init (api_key env_api_key : Option String)
    (base_url : String) (timeout : ℚ) :
    (resolveApiKey api_key env_api_key = none ∨ resolveApiKey api_key env_api_key = some "" →
      WakaTimeClient.init api_key env_api_key base_url timeout = .authError apiKeyMissingMsg) ∧
    (∀ k, resolveApiKey api_key env_api_key = some k → k ≠ "" →
      WakaTimeClient.init api_key env_api_key base_url timeout =
        .ok ⟨base_url, timeout, k⟩) := by
  constructor
  · rintro (h | h) <;> simp [WakaTimeClient.init, h]
  · intro k hk hne
    simp [WakaTimeClient.init, hk, hne]

/-- Witness for C5: missing key fails, explicit non-empty key succeeds. -/
theorem claim_C5_client_init_witness :
    (resolveApiKey none none = none ∨ resolveApiKey none none = some "") ∧
    WakaTimeClient.init none none "https://api.wakatime.com/api/v1" 30 =
      .authError apiKeyMissingMsg ∧
    resolveApiKey (some "waka_key") none = some "waka_key" ∧
    WakaTimeClient.init (some "waka_key") none "https://api.wakatime.com/api/v1" 30 =
      .ok ⟨"https://api.wakatime.com/api/v1", 30, "waka_key"⟩ :=
  ⟨Or.inl rfl,
   (claim_C5_client_init none none "https://api.wakatime.com/api/v1" 30).1 (Or.inl rfl),
   rfl,
   (claim_C5_client_init (some "waka_key") none "https://api.wakatime.com/api/v1" 30).2
     "waka_key" rfl (by decide)⟩

/-! ### Claim C3: `format_seconds` unit boundaries -/

/-- C3: for every non-negative `n`, `format_seconds` renders "`N` secs" with
`N = ⌊n⌋` below 60, "`N` mins" with `N = ⌊n/60⌋` below 3600, "`H` hrs`[ M
mins]`" with `H = ⌊n/3600⌋`, `M = ⌊n/60⌋ % 60` (omitted iff zero) below
86400, and "`D` days`[ H hrs]`" with `D = ⌊n/86400⌋`, `H = ⌊n/3600⌋ % 24`
(omitted iff zero) from 86400 on; all boundaries are integer floors. -/
theorem claim_C3_format_seconds (n : ℚ) (hn : 0 ≤ n) :
    (n < 60 → format_seconds n = intToStr ⌊n⌋ ++ " secs") ∧
    (60 ≤ n → n < 3600 → format_seconds n = intToStr ⌊n / 60⌋ ++ " mins") ∧
    (3600 ≤ n → n < 86400 →
      format_seconds n =
        (if ⌊n / 60⌋ % 60 = 0 then intToStr ⌊n / 3600⌋ ++ " hrs"
         else intToStr ⌊n / 3600⌋ ++ " hrs " ++ intToStr (⌊n / 60⌋ % 60) ++ " mins")) ∧
    (86400 ≤ n →
      format_seconds n =
        (if ⌊n / 3600⌋ % 24 = 0 then intToStr ⌊n / 86400⌋ ++ " days"
         else intToStr ⌊n / 86400⌋ ++ " days " ++ intToStr (⌊n / 3600⌋ % 24) ++ " hrs")) := by
  have hq60 : (0 : ℚ) < 60 := by norm_num
  have hfd60 : Int.fdiv ⌊n / 60⌋ 60 = ⌊n / 3600⌋ := by
    have h := fdiv_floor_div (n / 60) 60 (by norm_num)
    push_cast at h
    rw [div_div] at h
    norm_num at h
    exact_mod_cast h
  have hfm60 : Int.fmod ⌊n / 60⌋ 60 = ⌊n / 60⌋ % 60 :=
    Int.fmod_eq_emod _ (by norm_num)
  have hfd24 : Int.fdiv ⌊n / 3600⌋ 24 = ⌊n / 86400⌋ := by
    have h := fdiv_floor_div (n / 3600) 24 (by norm_num)
    push_cast at h
    rw [div_div] at h
    norm_num at h
    exact_mod_cast h
  have hfm24 : Int.fmod ⌊n / 3600⌋ 24 = ⌊n / 3600⌋ % 24 :=
    Int.fmod_eq_emod _ (by norm_num)
  refine ⟨?_, ?_, ?_, ?_⟩
  · intro h1
    simp only [format_seconds, pyInt]
    rw [if_pos h1, if_neg (not_lt.2 hn)]
  · intro h60 h3600
    have hm : ⌊n / 60⌋ < 60 := by
      rw [Int.floor_lt]
      push_cast
      rw [div_lt_iff₀ hq60]
      linarith
    simp only [format_seconds]
    rw [if_neg (not_lt.2 h60), if_pos hm]
  · intro h3600 h86400
    have hnlt60 : ¬ n < 60 := by linarith
    have hm : ¬ ⌊n / 60⌋ < 60 := by
      rw [not_lt, Int.le_floor]
      push_cast
      rw [le_div_iff₀ hq60]
      linarith
    have hh : Int.fdiv ⌊n / 60⌋ 60 < 24 := by
      rw [hfd60, Int.floor_lt]
      push_cast
      rw [div_lt_iff₀ (by norm_num : (0:ℚ) < 3600)]
      linarith
    simp only [format_seconds]
    rw [if_neg hnlt60, if_neg hm, if_pos hh, hfd60, hfm60]
  · intro h86400
    have hnlt60 : ¬ n < 60 := by linarith
    have hm : ¬ ⌊n / 60⌋ < 60 := by
      rw [not_lt, Int.le_floor]
      push_cast
      rw [le_div_iff₀ hq60]
      linarith
    have hh : ¬ Int.fdiv ⌊n / 60⌋ 60 < 24 := by
      rw [hfd60, not_lt, Int.le_floor]
      push_cast
      rw [le_div_iff₀ (by norm_num : (0:ℚ) < 3600)]
      linarith
    simp only [format_seconds]
    rw [if_neg hnlt60, if_neg hm, if_neg hh, hfd60, hfd24, hfm24]

/-- Witness for C3 at `n = 3661`, the "1 hrs 1 mins" boundary example. -/
theorem claim_C3_format_seconds_witness :
    0 ≤ (3661 : ℚ) ∧ (3600 : ℚ) ≤ 3661 ∧ (3661 : ℚ) < 86400 ∧
    format_seconds 3661 = "1 hrs 1 mins" := by
  refine ⟨by norm_num, by norm_num, by norm_num, ?_⟩
  have h := (claim_C3_format_seconds 3661 (by norm_num)).2.2.1 (by norm_num) (by norm_num)
  have e1 : ⌊(3661 : ℚ) / 60⌋ = 61 := by
    rw [show (3661 : ℚ) / 60 = ((3661 : ℤ) : ℚ) / ((60 : ℕ) : ℚ) by norm_num]
    rw [Rat.floor_intCast_div_natCast]
    decide
  have e2 : ⌊(3661 : ℚ) / 3600⌋ = 1 := by
    rw [show (3661 : ℚ) / 3600 = ((3661 : ℤ) : ℚ) / ((3600 : ℕ) : ℚ) by norm_num]
    rw [Rat.floor_intCast_div_natCast]
    decide
  rw [h, e1, e2]
  decide

/-! ### Helper lemmas: calendar arithmetic -/

theorem daysBeforeMonth_succ (y m : Nat) (h1 : 1 ≤ m) (h2 : m ≤ 11) :
    daysBeforeMonth y m + daysInMonth y m = daysBeforeMonth y (m + 1) := by
  interval_cases m <;> cases hL : isLeap y <;>
    simp [daysBeforeMonth, daysInMonth, hL]

theorem isLeap_iff (n : Nat) :
    isLeap n = true ↔ n % 4 = 0 ∧ (n % 100 ≠ 0 ∨ n % 400 = 0) := by
  simp [isLeap, Bool.and_eq_true, Bool.or_eq_true, beq_iff_eq, bne_iff_ne]

/-- `date - timedelta(days=1)` decrements the proleptic ordinal (for valid
dates other than the minimal `0001-01-01`). -/
theorem pred_toOrdinal (dt : PyDate) (hv : dt.valid) (hne : dt ≠ ⟨1, 1, 1⟩) :
    dt.pred.toOrdinal = dt.toOrdinal - 1 := by
  obtain ⟨hy, hm1, hm2, hd1, hd2⟩ := hv
  unfold PyDate.pred
  by_cases hday : 2 ≤ dt.day
  · rw [if_pos hday]
    unfold PyDate.toOrdinal
    dsimp only
    rw [Nat.cast_sub (by omega : 1 ≤ dt.day)]
    ring
  · by_cases hmon : 2 ≤ dt.month
    · rw [if_neg hday, if_pos hmon]
      have hd : dt.day = 1 := by omega
      have hsucc : daysBeforeMonth dt.year (dt.month - 1) +
          daysInMonth dt.year (dt.month - 1) = daysBeforeMonth dt.year dt.month := by
        have h := daysBeforeMonth_succ dt.year (dt.month - 1) (by omega) (by omega)
        rwa [Nat.sub_add_cancel (by omega)] at h
      unfold PyDate.toOrdinal
      dsimp only
      rw [hd, ← hsucc]
      push_cast
      ring
    · rw [if_neg hday, if_neg hmon]
      have hm : dt.month = 1 := by omega
      have hd : dt.day = 1 := by omega
      have hy2 : 2 ≤ dt.year := by
        rcases Nat.lt_or_ge dt.year 2 with h | h
        · exfalso
          apply hne
          have h1 : dt.year = 1 := by omega
          cases dt
          simp_all
        · exact h
      unfold PyDate.toOrdinal
      dsimp only
      rw [hm, hd]
      have hdbm1 : daysBeforeMonth dt.year 1 = 0 := by
        simp [daysBeforeMonth]
      have hcast : ((dt.year - 1 : Nat) : ℤ) = (dt.year : ℤ) - 1 :=
        Nat.cast_sub (by omega : 1 ≤ dt.year)
      rw [hdbm1]
      cases hL : isLeap (dt.year - 1) with
      | true =>
        have hprops := (isLeap_iff (dt.year - 1)).1 hL
        have hdbm12 : daysBeforeMonth (dt.year - 1) 12 = 335 := by
          simp [daysBeforeMonth, hL]
        rw [hdbm12, hcast]
        obtain ⟨h4, h100⟩ := hprops
        rcases h100 with h100 | h400 <;> omega
      | false =>
        have hprops : ¬ (dt.year - 1) % 4 = 0 ∨
            ((dt.year - 1) % 100 = 0 ∧ ¬ (dt.year - 1) % 400 = 0) := by
          by_cases h4 : (dt.year - 1) % 4 = 0
          · by_cases hc : (dt.year - 1) % 100 = 0
            · by_cases hc4 : (dt.year - 1) % 400 = 0
              · exfalso
                have : isLeap (dt.year - 1) = true := (isLeap_iff _).2 ⟨h4, Or.inr hc4⟩
                rw [hL] at this
                exact Bool.false_ne_true this
              · exact Or.inr ⟨hc, hc4⟩
            · exfalso
              have : isLeap (dt.year - 1) = true := (isLeap_iff _).2 ⟨h4, Or.inl hc⟩
              rw [hL] at this
              exact Bool.false_ne_true this
          · exact Or.inl h4
        have hdbm12 : daysBeforeMonth (dt.year - 1) 12 = 334 := by
          simp [daysBeforeMonth, hL]
        rw [hdbm12, hcast]
        rcases hprops with h4 | ⟨h100, h400⟩ <;> omega

/-! ### Helper lemmas: unfolding `get_summary` -/

theorem get_summary_of_plan_advisory {today : PyDate} {sd ed proj : Option String}
    {a b : String} (h : get_summary_plan today sd ed proj = .advisory a b)
    (data : List DaySummary) :
    get_summary today sd ed proj data = .advisory a b := by
  unfold get_summary
  rw [h]

theorem get_summary_of_plan_fetch {today : PyDate} {sd ed proj : Option String}
    {s e : PyDate} {p2 : Option String}
    (h : get_summary_plan today sd ed proj = .fetch s e p2)
    (data : List DaySummary) :
    get_summary today sd ed proj data = get_summary_finish s e proj data := by
  unfold get_summary
  rw [h]

theorem get_summary_finish_nil (s e : PyDate) (proj : Option String) :
    get_summary_finish s e proj [] =
      .noActivity s.isoformat e.isoformat "0 mins" 0
        "No coding activity recorded for this period." := by
  unfold get_summary_finish
  rw [if_pos rfl]

theorem get_summary_finish_multiDay (s e : PyDate) (proj : Option String)
    (data : List DaySummary) (hne : data ≠ []) (hr : s.toOrdinal ≠ e.toOrdinal) :
    get_summary_finish s e proj data =
      .multiDay s.isoformat e.isoformat (e.toOrdinal - s.toOrdinal + 1)
        (format_seconds (grandTotalSeconds data)) (grandTotalSeconds data)
        (if 0 < e.toOrdinal - s.toOrdinal + 1 then
          format_seconds (grandTotalSeconds data / ((e.toOrdinal - s.toOrdinal + 1 : ℤ) : ℚ))
         else "0 mins")
        (format_breakdown (grandTotalSeconds data) (aggregateTotals (fun d => d.projects) data) 10)
        (format_breakdown (grandTotalSeconds data) (aggregateTotals (fun d => d.languages) data) 10)
        (format_breakdown (grandTotalSeconds data) (aggregateTotals (fun d => d.editors) data) 5)
        (format_breakdown (grandTotalSeconds data) (aggregateTotals (fun d => d.categories) data) 5)
        (projectFilterField proj) := by
  unfold get_summary_finish
  rw [if_neg hne, if_pos hr]

theorem get_summary_finish_singleDay (s e : PyDate) (proj : Option String)
    (day : DaySummary) (rest : List DaySummary) (hr : s.toOrdinal = e.toOrdinal) :
    get_summary_finish s e proj (day :: rest) =
      .singleDay (day.range_date.getD s.isoformat) day.grand_total.text
        day.grand_total.total_seconds
        ((day.projects.take 10).map fun p => ⟨p.name, p.text, pyRound1 p.percent, some p.total_seconds⟩)
        ((day.languages.take 10).map fun l => ⟨l.name, l.text, pyRound1 l.percent, none⟩)
        ((day.editors.take 5).map fun ed => ⟨ed.name, ed.text, pyRound1 ed.percent, none⟩)
        ((day.categories.take 5).map fun c => ⟨c.name, c.text, pyRound1 c.percent, none⟩)
        (projectFilterField proj) := by
  unfold get_summary_finish
  rw [if_neg (by simp : ¬ day :: rest = ([] : List DaySummary)), if_neg (by simp [hr])]
  rfl

/-! ### Claim C4: end before start returns an advisory with no client call -/

/-- C4: when the parsed end date is strictly before the parsed start date,
`get_summary` settles on the `error`/`message` validation advisory during its
plan phase — before `get_summaries` could be invoked, so no request is ever
planned — and the overall result is that advisory for every possible
upstream response. -/
theorem claim_C4_invalid_range (today : PyDate) (sd ed proj : Option String)
    (s e : PyDate) (hs : (parse_date sd).getD today.pred = s)
    (he : (parse_date ed).getD today = e) (hlt : e.toOrdinal < s.toOrdinal) :
    get_summary_plan today sd ed proj =
      .advisory "Invalid date range" "end_date cannot be before start_date" ∧
    (∀ s2 e2 p2, get_summary_plan today sd ed proj ≠ .fetch s2 e2 p2) ∧
    (∀ data, get_summary today sd ed proj data =
      .advisory "Invalid date range" "end_date cannot be before start_date") := by
  have hplan : get_summary_plan today sd ed proj =
      .advisory "Invalid date range" "end_date cannot be before start_date" := by
    unfold get_summary_plan
    dsimp only
    rw [hs, he, if_pos hlt]
  refine ⟨hplan, ?_, ?_⟩
  · intro s2 e2 p2 hcontra
    rw [hplan] at hcontra
    exact SummaryPlan.noConfusion hcontra
  · intro data
    exact get_summary_of_plan_advisory hplan data

/-- Witness for C4 at the spec's example range (2024-01-10 to 2024-01-05). -/
theorem claim_C4_invalid_range_witness :
    get_summary_plan ⟨2024, 6, 1⟩ (some "2024-01-10") (some "2024-01-05") none =
      .advisory "Invalid date range" "end_date cannot be before start_date" ∧
    get_summary ⟨2024, 6, 1⟩ (some "2024-01-10") (some "2024-01-05") none [demoDay1] =
      .advisory "Invalid date range" "end_date cannot be before start_date" := by
  have h := claim_C4_invalid_range ⟨2024, 6, 1⟩ (some "2024-01-10") (some "2024-01-05")
    none ⟨2024, 1, 10⟩ ⟨2024, 1, 5⟩ (by decide) (by decide) (by decide)
  exact ⟨h.1, h.2.2 [demoDay1]⟩

/-! ### Claim C7: empty data list yields a zero-total non-error result -/

/-- C7: when the upstream summaries response carries an empty `data` list,
`get_summary` returns the non-advisory zero-total shape: start and end dates,
`total_time = "0 mins"`, `total_seconds = 0`, and the informational
no-activity message; it is never the `error`/`message` advisory shape. -/
theorem claim_C7_empty_data (today : PyDate) (sd ed proj : Option String)
    (s e : PyDate) (p2 : Option String)
    (h : get_summary_plan today sd ed proj = .fetch s e p2) :
    get_summary today sd ed proj [] =
      .noActivity s.isoformat e.isoformat "0 mins" 0
        "No coding activity recorded for this period." ∧
    (∀ a b, get_summary today sd ed proj [] ≠ .advisory a b) := by
  have hres := (get_summary_of_plan_fetch h []).trans (get_summary_finish_nil s e proj)
  refine ⟨hres, ?_⟩
  intro a b hcontra
  rw [hres] at hcontra
  exact SummaryResult.noConfusion hcontra

/-- Witness for C7 with default dates around a concrete `today`. -/
theorem claim_C7_empty_data_witness :
    get_summary ⟨2024, 6, 1⟩ none none none [] =
      .noActivity "2024-05-31" "2024-06-01" "0 mins" 0
        "No coding activity recorded for this period." :=
  (claim_C7_empty_data ⟨2024, 6, 1⟩ none none none ⟨2024, 5, 31⟩ ⟨2024, 6, 1⟩ none
    (by decide)).1

/-! ### Claim C10: malformed date strings are silently replaced by defaults -/

/-- C10: a non-empty `start_date`/`end_date` string that is not a valid
`YYYY-MM-DD` date parses to `None`, so `get_summary` behaves exactly as if
the argument were absent: the default (yesterday resp. today) is used, and no
advisory or error is produced for the malformed format itself (the plan is a
fetch, not an advisory, whenever the resulting range is in order). -/
theorem claim_C10_malformed_dates (today : PyDate) (sbad : String)
    (hne : sbad ≠ "") (hp : fromIsoformat sbad = none) :
    parse_date (some sbad) = none ∧
    (∀ ed proj data, get_summary today (some sbad) ed proj data =
      get_summary today none ed proj data) ∧
    (∀ sd proj data, get_summary today sd (some sbad) proj data =
      get_summary today sd none proj data) ∧
    (today.valid → today ≠ ⟨1, 1, 1⟩ → ∀ proj,
      get_summary_plan today (some sbad) none proj = .fetch today.pred today proj ∧
      ∀ a b, get_summary_plan today (some sbad) none proj ≠ .advisory a b) := by
  have hparse : parse_date (some sbad) = none := by
    show (if sbad = "" then none else fromIsoformat sbad) = none
    rw [if_neg hne]
    exact hp
  have hplan_eq : ∀ ed proj, get_summary_plan today (some sbad) ed proj =
      get_summary_plan today none ed proj := by
    intro ed proj
    unfold get_summary_plan
    rw [hparse]
    rfl
  have hplan_eq2 : ∀ sd proj, get_summary_plan today sd (some sbad) proj =
      get_summary_plan today sd none proj := by
    intro sd proj
    unfold get_summary_plan
    rw [hparse]
    rfl
  refine ⟨hparse, ?_, ?_, ?_⟩
  · intro ed proj data
    unfold get_summary
    rw [hplan_eq ed proj]
  · intro sd proj data
    unfold get_summary
    rw [hplan_eq2 sd proj]
  · intro hv hmin proj
    have hord : today.pred.toOrdinal = today.toOrdinal - 1 := pred_toOrdinal today hv hmin
    have hfetch : get_summary_plan today (some sbad) none proj =
        .fetch today.pred today proj := by
      unfold get_summary_plan
      rw [hparse]
      have : ¬ today.toOrdinal < ((parse_date none).getD today.pred).toOrdinal := by
        show ¬ today.toOrdinal < today.pred.toOrdinal
        omega
      rw [if_neg (by simpa using this)]
      rfl
    refine ⟨hfetch, ?_⟩
    intro a b hcontra
    rw [hfetch] at hcontra
    exact SummaryPlan.noConfusion hcontra

/-- Witness for C10 with the malformed string "2024-13-01" (month 13). -/
theorem claim_C10_malformed_dates_witness :
    badDateStr ≠ "" ∧ fromIsoformat badDateStr = none ∧
    parse_date (some badDateStr) = none ∧
    get_summary ⟨2024, 6, 1⟩ (some badDateStr) none none [] =
      get_summary ⟨2024, 6, 1⟩ none none none [] ∧
    get_summary_plan ⟨2024, 6, 1⟩ (some badDateStr) none none =
      .fetch ⟨2024, 5, 31⟩ ⟨2024, 6, 1⟩ none := by
  have h := claim_C10_malformed_dates ⟨2024, 6, 1⟩ badDateStr (by decide) (by decide)
  refine ⟨by decide, by decide, h.1, h.2.1 none none [], ?_⟩
  have hf := (h.2.2.2 (by decide) (by decide) none).1
  exact hf

/-! ### Claim C8: multi-day `num_days` and `daily_average` -/

theorem foldl_add_map_sum (days : List DaySummary) (a : ℚ) :
    days.foldl (fun acc day => acc + day.grand_total.total_seconds) a =
      a + (days.map fun d => d.grand_total.total_seconds).sum := by
  induction days generalizing a with
  | nil => simp
  | cons d ds ih =>
    simp only [List.foldl_cons, List.map_cons, List.sum_cons]
    rw [ih (a + d.grand_total.total_seconds), add_assoc]

theorem grandTotalSeconds_eq_sum (days : List DaySummary) :
    grandTotalSeconds days = (days.map fun d => d.grand_total.total_seconds).sum := by
  unfold grandTotalSeconds
  rw [foldl_add_map_sum, zero_add]

/-- C8: on the multi-day path the result reports
`num_days = (end - start).days + 1` (which is at least 2 there), and
`daily_average = format_seconds(total_seconds / num_days)` where
`total_seconds` is the sum of the daily grand totals. -/
theorem claim_C8_daily_average (today : PyDate) (sd ed proj : Option String)
    (s e : PyDate) (p2 : Option String) (data : List DaySummary)
    (h : get_summary_plan today sd ed proj = .fetch s e p2)
    (hlt : s.toOrdinal < e.toOrdinal) (hne : data ≠ []) :
    2 ≤ e.toOrdinal - s.toOrdinal + 1 ∧
    ∃ P L E C pf, get_summary today sd ed proj data =
      .multiDay s.isoformat e.isoformat (e.toOrdinal - s.toOrdinal + 1)
        (format_seconds ((data.map fun d => d.grand_total.total_seconds).sum))
        ((data.map fun d => d.grand_total.total_seconds).sum)
        (format_seconds ((data.map fun d => d.grand_total.total_seconds).sum /
          ((e.toOrdinal - s.toOrdinal + 1 : ℤ) : ℚ)))
        P L E C pf := by
  refine ⟨by omega, ?_⟩
  rw [get_summary_of_plan_fetch h data,
    get_summary_finish_multiDay s e proj data hne (by omega),
    if_pos (by omega : (0 : ℤ) < e.toOrdinal - s.toOrdinal + 1),
    grandTotalSeconds_eq_sum]
  exact ⟨_, _, _, _, _, rfl⟩

/-- Witness for C8 on a concrete two-day range. -/
theorem claim_C8_daily_average_witness :
    2 ≤ (⟨2024, 1, 2⟩ : PyDate).toOrdinal - (⟨2024, 1, 1⟩ : PyDate).toOrdinal + 1 ∧
    ∃ P L E C pf,
      get_summary ⟨2024, 1, 10⟩ (some "2024-01-01") (some "2024-01-02") none
          [demoDay1, demoDay2] =
        .multiDay (PyDate.isoformat ⟨2024, 1, 1⟩) (PyDate.isoformat ⟨2024, 1, 2⟩)
          ((⟨2024, 1, 2⟩ : PyDate).toOrdinal - (⟨2024, 1, 1⟩ : PyDate).toOrdinal + 1)
          (format_seconds (([demoDay1, demoDay2].map fun d => d.grand_total.total_seconds).sum))
          (([demoDay1, demoDay2].map fun d => d.grand_total.total_seconds).sum)
          (format_seconds (([demoDay1, demoDay2].map fun d => d.grand_total.total_seconds).sum /
            (((⟨2024, 1, 2⟩ : PyDate).toOrdinal - (⟨2024, 1, 1⟩ : PyDate).toOrdinal + 1 : ℤ) : ℚ)))
          P L E C pf :=
  claim_C8_daily_average ⟨2024, 1, 10⟩ (some "2024-01-01") (some "2024-01-02") none
    ⟨2024, 1, 1⟩ ⟨2024, 1, 2⟩ none [demoDay1, demoDay2]
    (by decide) (by decide) (by decide)

/-! ### Claim C6 (corrected): the single-day path and percent rounding -/

/-- Counterexample to C6 as stated: for a single-day call whose upstream
language percent is `33.33`, the returned percent is `33.3`, not the raw
upstream percentage unchanged. -/
theorem claim_C6_counterexample :
    (get_summary ⟨2024, 1, 10⟩ (some "2024-01-05") (some "2024-01-05") none
        [demoDayRawPercent]).languagesOf.map (fun i => i.percent) = [333/10] ∧
    ((333 : ℚ)/10) ≠ 3333/100 ∧
    demoDayRawPercent.languages.map (fun e => e.percent) = [3333/100] := by
  refine ⟨?_, by norm_num, by rfl⟩
  have hplan : get_summary_plan ⟨2024, 1, 10⟩ (some "2024-01-05") (some "2024-01-05") none =
      .fetch ⟨2024, 1, 5⟩ ⟨2024, 1, 5⟩ none := by decide
  rw [get_summary_of_plan_fetch hplan,
    get_summary_finish_singleDay ⟨2024, 1, 5⟩ ⟨2024, 1, 5⟩ none demoDayRawPercent [] rfl]
  have hf : ⌊(3333 : ℚ) / 100 * 10⌋ = 333 := by
    rw [show (3333 : ℚ) / 100 * 10 = ((3333 : ℤ) : ℚ) / ((10 : ℕ) : ℚ) by norm_num,
      Rat.floor_intCast_div_natCast]
    decide
  have hrhe : roundHalfEven ((3333 : ℚ) / 100 * 10) = 333 := by
    unfold roundHalfEven
    rw [hf]
    rw [if_pos (by norm_num : (3333 : ℚ) / 100 * 10 - ((333 : ℤ) : ℚ) < 1/2)]
  have hround : pyRound1 ((3333 : ℚ) / 100) = 333/10 := by
    unfold pyRound1
    rw [hrhe]
    norm_num
  simp only [SummaryResult.languagesOf, demoDayRawPercent, List.take, List.map,
    List.map_cons, List.map_nil]
  rw [hround]

/-- C6 amended: when start equals end (with a non-empty data list),
`get_summary` bypasses the aggregation path and reshapes the first day's
summary directly — each breakdown entry's percent is that day's raw upstream
percent rounded to 1 decimal (never recomputed from an aggregate), with
languages and projects truncated to 10 and editors and categories to 5. -/
theorem claim_C6_single_day (today : PyDate) (sd ed proj : Option String)
    (s e : PyDate) (p2 : Option String) (day : DaySummary) (rest : List DaySummary)
    (h : get_summary_plan today sd ed proj = .fetch s e p2)
    (heq : s.toOrdinal = e.toOrdinal) :
    get_summary today sd ed proj (day :: rest) =
      .singleDay (day.range_date.getD s.isoformat) day.grand_total.text
        day.grand_total.total_seconds
        ((day.projects.take 10).map fun p => ⟨p.name, p.text, pyRound1 p.percent, some p.total_seconds⟩)
        ((day.languages.take 10).map fun l => ⟨l.name, l.text, pyRound1 l.percent, none⟩)
        ((day.editors.take 5).map fun ed2 => ⟨ed2.name, ed2.text, pyRound1 ed2.percent, none⟩)
        ((day.categories.take 5).map fun c => ⟨c.name, c.text, pyRound1 c.percent, none⟩)
        (projectFilterField proj) ∧
    specSingleDayItemsOk day.projects 10 true
      ((day.projects.take 10).map fun p => ⟨p.name, p.text, pyRound1 p.percent, some p.total_seconds⟩) ∧
    specSingleDayItemsOk day.languages 10 false
      ((day.languages.take 10).map fun l => ⟨l.name, l.text, pyRound1 l.percent, none⟩) ∧
    specSingleDayItemsOk day.editors 5 false
      ((day.editors.take 5).map fun ed2 => ⟨ed2.name, ed2.text, pyRound1 ed2.percent, none⟩) ∧
    specSingleDayItemsOk day.categories 5 false
      ((day.categories.take 5).map fun c => ⟨c.name, c.text, pyRound1 c.percent, none⟩) := by
  have hok : ∀ (src : List SummaryEntry) (limit : Nat) (keep : Bool),
      specSingleDayItemsOk src limit keep
        ((src.take limit).map fun e2 => ⟨e2.name, e2.text, pyRound1 e2.percent,
          if keep then some e2.total_seconds else none⟩) := by
    intro src limit keep
    constructor
    · rw [List.length_map]
      have := List.length_take limit src
      omega
    · intro item hitem
      obtain ⟨e2, he2, rfl⟩ := List.mem_map.1 hitem
      exact ⟨e2, (List.take_sublist limit src).mem he2, rfl⟩
  refine ⟨?_, ?_, ?_, ?_, ?_⟩
  · exact (get_summary_of_plan_fetch h (day :: rest)).trans
      (get_summary_finish_singleDay s e proj day rest heq)
  · exact hok day.projects 10 true
  · exact hok day.languages 10 false
  · exact hok day.editors 5 false
  · exact hok day.categories 5 false

/-- Witness for the amended C6 on a concrete single-day call. -/
theorem claim_C6_single_day_witness :
    get_summary ⟨2024, 1, 10⟩ (some "2024-01-05") (some "2024-01-05") none
        [demoDayRawPercent] =
      .singleDay (demoDayRawPercent.range_date.getD (PyDate.isoformat ⟨2024, 1, 5⟩))
        demoDayRawPercent.grand_total.text demoDayRawPercent.grand_total.total_seconds
        ((demoDayRawPercent.projects.take 10).map fun p => ⟨p.name, p.text, pyRound1 p.percent, some p.total_seconds⟩)
        ((demoDayRawPercent.languages.take 10).map fun l => ⟨l.name, l.text, pyRound1 l.percent, none⟩)
        ((demoDayRawPercent.editors.take 5).map fun ed2 => ⟨ed2.name, ed2.text, pyRound1 ed2.percent, none⟩)
        ((demoDayRawPercent.categories.take 5).map fun c => ⟨c.name, c.text, pyRound1 c.percent, none⟩)
        (projectFilterField none) ∧
    specSingleDayItemsOk demoDayRawPercent.languages 10 false
      ((demoDayRawPercent.languages.take 10).map fun l => ⟨l.name, l.text, pyRound1 l.percent, none⟩) := by
  have h := claim_C6_single_day ⟨2024, 1, 10⟩ (some "2024-01-05") (some "2024-01-05") none
    ⟨2024, 1, 5⟩ ⟨2024, 1, 5⟩ none demoDayRawPercent [] (by decide) rfl
  exact ⟨h.1, h.2.2.1⟩

/-! ### Helper lemmas: the totals accumulator dict -/

theorem totalsGet_upsert (m : List (String × ℚ)) (k : String) (v : ℚ) (k' : String) :
    totalsGet (upsertTotal m k v) k' = totalsGet m k' + (if k' = k then v else 0) := by
  induction m with
  | nil =>
    simp only [upsertTotal, totalsGet]
    by_cases h : k' = k
    · subst h
      simp
    · rw [if_neg (fun hh => h hh.symm), if_neg h, add_zero]
  | cons p rest ih =>
    obtain ⟨k0, v0⟩ := p
    simp only [upsertTotal]
    by_cases h0 : k0 = k
    · rw [if_pos h0]
      simp only [totalsGet]
      by_cases h1 : k0 = k'
      · rw [if_pos h1, if_pos h1, if_pos (h1.symm.trans h0)]
      · rw [if_neg h1, if_neg h1]
        subst h0
        rw [if_neg (fun hh => h1 hh.symm), add_zero]
    · rw [if_neg h0]
      simp only [totalsGet]
      by_cases h1 : k0 = k'
      · rw [if_pos h1, if_pos h1, if_neg (fun hh => h0 (h1.trans hh)), add_zero]
      · rw [if_neg h1, if_neg h1, ih]

theorem upsertTotal_fst (m : List (String × ℚ)) (k : String) (v : ℚ) :
    (upsertTotal m k v).map Prod.fst =
      if k ∈ m.map Prod.fst then m.map Prod.fst else m.map Prod.fst ++ [k] := by
  induction m with
  | nil => simp [upsertTotal]
  | cons p rest ih =>
    obtain ⟨k0, v0⟩ := p
    simp only [upsertTotal]
    by_cases h0 : k0 = k
    · rw [if_pos h0]
      have hmem : k ∈ ((k0, v0) :: rest).map Prod.fst := by
        simp [h0.symm]
      rw [if_pos hmem]
      simp
    · rw [if_neg h0]
      simp only [List.map_cons, ih]
      have hne : ¬ k = k0 := fun hh => h0 hh.symm
      by_cases hin : k ∈ rest.map Prod.fst
      · rw [if_pos hin, if_pos (by simp [hin])]
      · rw [if_neg hin, if_neg (by simp [hne, hin])]
        simp

theorem upsertTotal_nodup (m : List (String × ℚ)) (k : String) (v : ℚ)
    (h : (m.map Prod.fst).Nodup) : ((upsertTotal m k v).map Prod.fst).Nodup := by
  rw [upsertTotal_fst]
  by_cases hin : k ∈ m.map Prod.fst
  · rw [if_pos hin]
    exact h
  · rw [if_neg hin]
    refine List.Nodup.append h (List.nodup_singleton k) ?_
    intro a ha hb
    rw [List.mem_singleton] at hb
    subst hb
    exact hin ha

theorem totalsGet_of_mem (m : List (String × ℚ)) (k : String) (s : ℚ)
    (hmem : (k, s) ∈ m) (hnd : (m.map Prod.fst).Nodup) : totalsGet m k = s := by
  induction m with
  | nil => cases hmem
  | cons p rest ih =>
    obtain ⟨k0, v0⟩ := p
    rcases List.mem_cons.1 hmem with heq | hmem2
    · obtain ⟨h1, h2⟩ := Prod.mk.injEq .. ▸ heq
      simp only [totalsGet]
      rw [if_pos h1.symm]
      exact h2.symm
    · have hk0 : ¬ k0 = k := by
        intro hh
        subst hh
        have hmap : k0 ∈ rest.map Prod.fst := List.mem_map.2 ⟨(k0, s), hmem2, rfl⟩
        exact (List.nodup_cons.1 hnd).1 hmap
      simp only [totalsGet]
      rw [if_neg hk0]
      exact ih hmem2 (List.nodup_cons.1 hnd).2

theorem totalsGet_foldl_entries (es : List SummaryEntry) (m : List (String × ℚ))
    (k : String) :
    totalsGet (es.foldl (fun m e => upsertTotal m e.name e.total_seconds) m) k =
      totalsGet m k + (es.map fun e => if e.name = k then e.total_seconds else 0).sum := by
  induction es generalizing m with
  | nil => simp
  | cons e es ih =>
    simp only [List.foldl_cons, List.map_cons, List.sum_cons]
    rw [ih, totalsGet_upsert]
    have hite : (if k = e.name then e.total_seconds else 0) =
        (if e.name = k then e.total_seconds else 0) := by
      by_cases h : k = e.name
      · rw [if_pos h, if_pos h.symm]
      · rw [if_neg h, if_neg (fun hh => h hh.symm)]
    rw [hite]
    ring

theorem nodup_foldl_entries (es : List SummaryEntry) (m : List (String × ℚ))
    (h : (m.map Prod.fst).Nodup) :
    (((es.foldl (fun m e => upsertTotal m e.name e.total_seconds) m)).map Prod.fst).Nodup := by
  induction es generalizing m with
  | nil => exact h
  | cons e es ih =>
    simp only [List.foldl_cons]
    exact ih _ (upsertTotal_nodup m e.name e.total_seconds h)

theorem totalsGet_foldl_days (get : DaySummary → List SummaryEntry)
    (days : List DaySummary) (m : List (String × ℚ)) (k : String) :
    totalsGet (days.foldl (addDayTotals get) m) k =
      totalsGet m k +
        (days.map fun d => ((get d).map fun e => if e.name = k then e.total_seconds else 0).sum).sum := by
  induction days generalizing m with
  | nil => simp
  | cons d ds ih =>
    simp only [List.foldl_cons, List.map_cons, List.sum_cons]
    rw [ih]
    unfold addDayTotals
    rw [totalsGet_foldl_entries]
    ring

theorem totalsGet_aggregate (get : DaySummary → List SummaryEntry)
    (days : List DaySummary) (k : String) :
    totalsGet (aggregateTotals get days) k = specAccumulatedSeconds get days k := by
  unfold aggregateTotals specAccumulatedSeconds
  rw [totalsGet_foldl_days]
  simp [totalsGet]

theorem aggregateTotals_nodup (get : DaySummary → List SummaryEntry)
    (days : List DaySummary) : ((aggregateTotals get days).map Prod.fst).Nodup := by
  unfold aggregateTotals
  have hgen : ∀ (ds : List DaySummary) (m : List (String × ℚ)),
      (m.map Prod.fst).Nodup → ((ds.foldl (addDayTotals get) m).map Prod.fst).Nodup := by
    intro ds
    induction ds with
    | nil => intro m h; exact h
    | cons d ds ih =>
      intro m h
      simp only [List.foldl_cons]
      exact ih _ (nodup_foldl_entries (get d) m h)
  exact hgen days [] (by simp)

/-! ### Helper lemmas: the stable descending sort -/

theorem insertDescBySeconds_perm (x : String × ℚ) (l : List (String × ℚ)) :
    List.Perm (insertDescBySeconds x l) (x :: l) := by
  induction l with
  | nil => exact List.Perm.refl _
  | cons y ys ih =>
    simp only [insertDescBySeconds]
    by_cases h : y.2 < x.2
    · rw [if_pos h]
    · rw [if_neg h]
      exact (ih.cons y).trans (List.Perm.swap x y ys)

theorem sortDescBySeconds_perm (l : List (String × ℚ)) :
    List.Perm (sortDescBySeconds l) l := by
  induction l with
  | nil => exact List.Perm.refl _
  | cons x xs ih =>
    exact (insertDescBySeconds_perm x (sortDescBySeconds xs)).trans (ih.cons x)

theorem insertDescBySeconds_sorted (x : String × ℚ) (l : List (String × ℚ))
    (h : l.Pairwise (fun a b => b.2 ≤ a.2)) :
    (insertDescBySeconds x l).Pairwise (fun a b => b.2 ≤ a.2) := by
  induction l with
  | nil => simp [insertDescBySeconds]
  | cons y ys ih =>
    obtain ⟨hy, hys⟩ := List.pairwise_cons.1 h
    simp only [insertDescBySeconds]
    by_cases hlt : y.2 < x.2
    · rw [if_pos hlt]
      refine List.pairwise_cons.2 ⟨?_, h⟩
      intro z hz
      rcases List.mem_cons.1 hz with rfl | hz2
      · exact le_of_lt hlt
      · exact le_trans (hy z hz2) (le_of_lt hlt)
    · rw [if_neg hlt]
      refine List.pairwise_cons.2 ⟨?_, ih hys⟩
      intro z hz
      have hz3 : z ∈ x :: ys := (insertDescBySeconds_perm x ys).subset hz
      rcases List.mem_cons.1 hz3 with rfl | hz4
      · exact not_lt.1 hlt
      · exact hy z hz4

theorem sortDescBySeconds_sorted (l : List (String × ℚ)) :
    (sortDescBySeconds l).Pairwise (fun a b => b.2 ≤ a.2) := by
  induction l with
  | nil => simp [sortDescBySeconds]
  | cons x xs ih => exact insertDescBySeconds_sorted x _ ih

/-! ### `format_breakdown` satisfies the aggregation contract -/

theorem format_breakdown_ok (get : DaySummary → List SummaryEntry)
    (days : List DaySummary) (T : ℚ) (limit : Nat) :
    specBreakdownOk get limit days T
      (format_breakdown T (aggregateTotals get days) limit) := by
  refine ⟨?_, ?_, ?_⟩
  · simp only [format_breakdown, List.length_map]
    have h := List.length_take limit (sortDescBySeconds (aggregateTotals get days))
    omega
  · unfold specSortedDesc format_breakdown
    rw [List.pairwise_map]
    have hs : (List.take limit (sortDescBySeconds (aggregateTotals get days))).Pairwise
        (fun a b => b.2 ≤ a.2) :=
      (sortDescBySeconds_sorted _).sublist (List.take_sublist _ _)
    refine hs.imp ?_
    intro p q hqp x y hx hy
    rw [Option.some.injEq] at hx hy
    rw [← hx, ← hy]
    exact hqp
  · intro item hitem
    unfold format_breakdown at hitem
    obtain ⟨p, hp, rfl⟩ := List.mem_map.1 hitem
    have hp2 : p ∈ sortDescBySeconds (aggregateTotals get days) :=
      (List.take_sublist _ _).mem hp
    have hp3 : p ∈ aggregateTotals get days := (sortDescBySeconds_perm _).subset hp2
    obtain ⟨pk, pv⟩ := p
    have hval : totalsGet (aggregateTotals get days) pk = pv :=
      totalsGet_of_mem _ _ _ hp3 (aggregateTotals_nodup get days)
    refine ⟨pv, rfl, ?_, rfl, ?_⟩
    · rw [← totalsGet_aggregate]
      exact hval.symm
    · by_cases hT : 0 < T
      · rw [if_pos hT, if_pos hT]
        have harg : pv / T * 100 = 100 * pv / T := by ring
        rw [harg]
      · rw [if_neg hT, if_neg hT]

/-! ### Claim C1: multi-day aggregation of breakdowns -/

/-- C1: on the multi-day path (start strictly before end, non-empty data),
each returned breakdown list is built by accumulating `total_seconds` per
name across all days, is sorted descending by accumulated seconds, is
truncated to 10 entries (projects/languages) or 5 (editors/categories), and
each entry's percent is `round(100 * accumulated / total, 1)` when the summed
total is positive and `0` when it is zero — never a percent copied from any
single day's entry. -/
theorem claim_C1_multi_day_aggregation (today : PyDate) (sd ed proj : Option String)
    (s e : PyDate) (p2 : Option String) (data : List DaySummary)
    (h : get_summary_plan today sd ed proj = .fetch s e p2)
    (hlt : s.toOrdinal < e.toOrdinal) (hne : data ≠ []) :
    ∃ nd ti da pf P L E C,
      get_summary today sd ed proj data =
        .multiDay s.isoformat e.isoformat nd ti
          ((data.map fun d => d.grand_total.total_seconds).sum) da P L E C pf ∧
      specBreakdownOk (fun d => d.projects) 10 data
        ((data.map fun d => d.grand_total.total_seconds).sum) P ∧
      specBreakdownOk (fun d => d.languages) 10 data
        ((data.map fun d => d.grand_total.total_seconds).sum) L ∧
      specBreakdownOk (fun d => d.editors) 5 data
        ((data.map fun d => d.grand_total.total_seconds).sum) E ∧
      specBreakdownOk (fun d => d.categories) 5 data
        ((data.map fun d => d.grand_total.total_seconds).sum) C := by
  rw [get_summary_of_plan_fetch h data,
    get_summary_finish_multiDay s e proj data hne (by omega),
    grandTotalSeconds_eq_sum]
  exact ⟨_, _, _, _, _, _, _, _, rfl,
    format_breakdown_ok (fun d => d.projects) data _ 10,
    format_breakdown_ok (fun d => d.languages) data _ 10,
    format_breakdown_ok (fun d => d.editors) data _ 5,
    format_breakdown_ok (fun d => d.categories) data _ 5⟩

/-- Witness for C1 on a concrete two-day range sharing the language "Go". -/
theorem claim_C1_multi_day_aggregation_witness :
    ∃ nd ti da pf P L E C,
      get_summary ⟨2024, 1, 10⟩ (some "2024-01-01") (some "2024-01-02") none
          [demoDay1, demoDay2] =
        .multiDay (PyDate.isoformat ⟨2024, 1, 1⟩) (PyDate.isoformat ⟨2024, 1, 2⟩) nd ti
          (([demoDay1, demoDay2].map fun d => d.grand_total.total_seconds).sum) da P L E C pf ∧
      specBreakdownOk (fun d => d.projects) 10 [demoDay1, demoDay2]
        (([demoDay1, demoDay2].map fun d => d.grand_total.total_seconds).sum) P ∧
      specBreakdownOk (fun d => d.languages) 10 [demoDay1, demoDay2]
        (([demoDay1, demoDay2].map fun d => d.grand_total.total_seconds).sum) L ∧
      specBreakdownOk (fun d => d.editors) 5 [demoDay1, demoDay2]
        (([demoDay1, demoDay2].map fun d => d.grand_total.total_seconds).sum) E ∧
      specBreakdownOk (fun d => d.categories) 5 [demoDay1, demoDay2]
        (([demoDay1, demoDay2].map fun d => d.grand_total.total_seconds).sum) C :=
  claim_C1_multi_day_aggregation ⟨2024, 1, 10⟩ (some "2024-01-01") (some "2024-01-02")
    none ⟨2024, 1, 1⟩ ⟨2024, 1, 2⟩ none [demoDay1, demoDay2]
    (by decide) (by decide) (by decide)

/-! ### Claim C9: `get_coding_stats` truncation in upstream order -/

/-- C9: each breakdown list of a `get_coding_stats` result is a prefix of the
upstream list in the order received — languages and projects to at most 10,
editors, operating systems and categories to at most 5 — with each entry's
percent being the upstream percent rounded to 1 decimal. -/
theorem claim_C9_stats_truncation (range : String) (stats : StatsData) :
    (get_coding_stats range stats).languages.length = min 10 stats.languages.length ∧
    (∀ i, i < 10 → (get_coding_stats range stats).languages.get? i =
      (stats.languages.get? i).map fun l =>
        ⟨l.name, l.text, pyRound1 l.percent, some l.total_seconds⟩) ∧
    (get_coding_stats range stats).projects.length = min 10 stats.projects.length ∧
    (∀ i, i < 10 → (get_coding_stats range stats).projects.get? i =
      (stats.projects.get? i).map fun p =>
        ⟨p.name, p.text, pyRound1 p.percent, some p.total_seconds⟩) ∧
    (get_coding_stats range stats).editors.length = min 5 stats.editors.length ∧
    (∀ i, i < 5 → (get_coding_stats range stats).editors.get? i =
      (stats.editors.get? i).map fun e =>
        ⟨e.name, e.text, pyRound1 e.percent, none⟩) ∧
    (get_coding_stats range stats).operating_systems.length = min 5 stats.operating_systems.length ∧
    (∀ i, i < 5 → (get_coding_stats range stats).operating_systems.get? i =
      (stats.operating_systems.get? i).map fun o =>
        ⟨o.name, o.text, pyRound1 o.percent, none⟩) ∧
    (get_coding_stats range stats).categories.length = min 5 stats.categories.length ∧
    (∀ i, i < 5 → (get_coding_stats range stats).categories.get? i =
      (stats.categories.get? i).map fun c =>
        ⟨c.name, c.text, pyRound1 c.percent, none⟩) := by
  have hlen : ∀ (src : List SummaryEntry) (limit : Nat)
      (f : SummaryEntry → BreakdownItem),
      ((src.take limit).map f).length = min limit src.length := by
    intro src limit f
    rw [List.length_map, List.length_take]
  have hget : ∀ (src : List SummaryEntry) (limit : Nat)
      (f : SummaryEntry → BreakdownItem) (i : Nat), i < limit →
      ((src.take limit).map f).get? i = (src.get? i).map f := by
    intro src limit f i hi
    rw [List.get?_map, List.get?_take hi]
  exact ⟨hlen _ _ _, fun i hi => hget _ _ _ i hi,
    hlen _ _ _, fun i hi => hget _ _ _ i hi,
    hlen _ _ _, fun i hi => hget _ _ _ i hi,
    hlen _ _ _, fun i hi => hget _ _ _ i hi,
    hlen _ _ _, fun i hi => hget _ _ _ i hi⟩

/-- Witness for C9 on a stats payload with 15 languages: exactly the first 10
are kept, in upstream order. -/
theorem claim_C9_stats_truncation_witness :
    demoStats.languages.length = 15 ∧
    (get_coding_stats "last_7_days" demoStats).languages.length =
      min 10 demoStats.languages.length ∧
    (0 : Nat) < 10 ∧
    ((get_coding_stats "last_7_days" demoStats).languages.get? 0 =
      (demoStats.languages.get? 0).map fun l =>
        ⟨l.name, l.text, pyRound1 l.percent, some l.total_seconds⟩) ∧
    ((get_coding_stats "last_7_days" demoStats).languages.get? 9 =
      (demoStats.languages.get? 9).map fun l =>
        ⟨l.name, l.text, pyRound1 l.percent, some l.total_seconds⟩) :=
  ⟨rfl,
   (claim_C9_stats_truncation "last_7_days" demoStats).1,
   by norm_num,
   (claim_C9_stats_truncation "last_7_days" demoStats).2.1 0 (by norm_num),
   (claim_C9_stats_truncation "last_7_days" demoStats).2.1 9 (by norm_num)⟩
